import Mathlib

/-!
Verification of the availability/shift coordination logic of the scheduling
application.  Client stores are modelled as Lean lists of records, change-feed
payloads as an inductive event type, and the React state-updater functions of
the source as pure list transformers.  JavaScript strings are modelled as
`String` (record fields, identifiers, ISO dates) or as `List Char` where the
source manipulates a string character-wise (`split(':')`-based time
formatting).  Mutation handlers with optimistic apply / rollback are modelled
as the composition of their synchronous state updates, with the outcome of the
asynchronous persistence call and of the email dispatch passed in as booleans.
-/

/-- Confirmation status of a shift: the `confirmation_status` column. -/
inductive ConfirmationStatus where
  | pending
  | confirmed
  | declined
deriving DecidableEq

/-- Availability status as stored in a row; the source additionally uses
`null` (absence), modelled as `Option AvailabilityStatus`. -/
inductive AvailabilityStatus where
  | unavailable
  | available
  | preferred
deriving DecidableEq

/-- A row of the `shifts` table (`Database['public']['Tables']['shifts']['Row']`). -/
structure Shift where
  id : String
  date : String
  assigned_pa_id : String
  assigned_by_id : String
  call_time : Option String
  wrap_time : Option String
  confirmation_status : ConfirmationStatus
  created_at : String
  updated_at : String
deriving DecidableEq

/-- A row of the `availability` table. -/
structure Availability where
  id : String
  user_id : String
  date : String
  status : AvailabilityStatus
  pa_note : Option String
  created_at : String
  updated_at : String
deriving DecidableEq

/-- A change-feed (postgres_changes) payload: INSERT and UPDATE carry the new
row, DELETE carries the old row. -/
inductive ChangeEvent (α : Type) where
  | insert (newRow : α)
  | update (newRow : α)
  | delete (oldRow : α)
deriving DecidableEq

namespace PACalendar

/-- From pa-calendar.tsx `cycleStatus`: the click handler's state ring. -/
def cycleStatus : Option AvailabilityStatus → Option AvailabilityStatus
  | none => some .unavailable
  | some .unavailable => some .available
  | some .available => some .preferred
  | some .preferred => none

/-- From pa-calendar.tsx `getStatusLabel` (one-argument, PA-facing). -/
def getStatusLabel : Option AvailabilityStatus → String
  | some .preferred => "Preferred"
  | some .available => "Available"
  | some .unavailable => "Unavailable"
  | none => "Not Set"

/-- The `changedDate` the PA calendar handler extracts from a payload:
`(payload.new)?.date || (payload.old)?.date`. -/
def eventDate : ChangeEvent Availability → String
  | .insert r => r.date
  | .update r => r.date
  | .delete r => r.date

/-- From pa-calendar.tsx, the real-time availability subscription handler:
events are applied only when `changedDate` lies in the selected month window;
INSERT appends unconditionally, UPDATE replaces by id, DELETE filters by id. -/
def applyAvailabilityEvent (monthStartDate monthEndDate : String)
    (prev : List Availability) (ev : ChangeEvent Availability) : List Availability :=
  if monthStartDate ≤ eventDate ev ∧ eventDate ev ≤ monthEndDate then
    match ev with
    | .insert r => prev ++ [r]
    | .update r => prev.map fun avail => if avail.id = r.id then r else avail
    | .delete r => prev.filter fun avail => avail.id ≠ r.id
  else
    prev

end PACalendar

namespace AvailabilityGrid

/-- From logout-button.tsx `getStatusLabel` (two-argument, PC-facing):
a shift assignment overrides the availability status. -/
def getStatusLabel (status : Option AvailabilityStatus) (hasShift : Bool) : String :=
  if hasShift then
    "Assigned"
  else
    match status with
    | some .preferred => "Preferred"
    | some .available => "Available"
    | some .unavailable => "Unavailable"
    | none => "No data"

end AvailabilityGrid

namespace PAShifts

/-- From pa-shifts.tsx, the INSERT branch of the real-time shifts handler:
if a shift with the payload id already exists, replace it, else append. -/
def mergeInsert (prev : List Shift) (ev : Shift) : List Shift :=
  if prev.any fun s => s.id = ev.id then
    prev.map fun shift => if shift.id = ev.id then ev else shift
  else
    prev ++ [ev]

/-- From pa-shifts.tsx, the UPDATE branch: if the shift is absent from local
state, add it; otherwise replace the matching id. -/
def mergeUpdate (prev : List Shift) (ev : Shift) : List Shift :=
  if prev.any fun shift => shift.id = ev.id then
    prev.map fun shift => if shift.id = ev.id then ev else shift
  else
    prev ++ [ev]

/-- From pa-shifts.tsx, the DELETE branch: remove the matching id. -/
def mergeDelete (prev : List Shift) (ev : Shift) : List Shift :=
  prev.filter fun shift => shift.id ≠ ev.id

/-- The optimistic update of `confirmShift`: map the matching id to status
confirmed. -/
def confirmShiftOptimistic (prev : List Shift) (shiftId : String) : List Shift :=
  prev.map fun shift =>
    if shift.id = shiftId then { shift with confirmation_status := .confirmed } else shift

/-- The rollback in the `catch` of `confirmShift`: if a previous shift was
captured, map the matching id back to it; otherwise no rollback runs. -/
def confirmShiftRollback (prev : List Shift) (shiftId : String)
    (previousShift : Option Shift) : List Shift :=
  match previousShift with
  | some p => prev.map fun shift => if shift.id = shiftId then p else shift
  | none => prev

/-- The optimistic update of `declineShift`: map the matching id to status
declined. -/
def declineShiftOptimistic (prev : List Shift) (shiftId : String) : List Shift :=
  prev.map fun shift =>
    if shift.id = shiftId then { shift with confirmation_status := .declined } else shift

/-- The rollback in the `catch` of `declineShift`. -/
def declineShiftRollback (prev : List Shift) (shiftId : String)
    (previousShift : Option Shift) : List Shift :=
  match previousShift with
  | some p => prev.map fun shift => if shift.id = shiftId then p else shift
  | none => prev

end PAShifts

namespace AvailabilityGrid

/-- From logout-button.tsx, the INSERT branch of the shifts subscription:
replace if the id already exists (avoid duplicates), else append. -/
def shiftsMergeInsert (prev : List Shift) (ev : Shift) : List Shift :=
  if prev.any fun s => s.id = ev.id then
    prev.map fun shift => if shift.id = ev.id then ev else shift
  else
    prev ++ [ev]

/-- From logout-button.tsx, the UPDATE branch of the shifts subscription:
replace the matching id only (no insert when absent). -/
def shiftsMergeUpdate (prev : List Shift) (ev : Shift) : List Shift :=
  prev.map fun shift => if shift.id = ev.id then ev else shift

/-- From logout-button.tsx, the DELETE branch of the shifts subscription. -/
def shiftsMergeDelete (prev : List Shift) (ev : Shift) : List Shift :=
  prev.filter fun shift => shift.id ≠ ev.id

/-- From logout-button.tsx, the availability subscription handler: INSERT
appends unconditionally, UPDATE replaces the matching id, DELETE filters; no
date-window check and no duplicate check. -/
def applyAvailabilityEvent (prev : List Availability)
    (ev : ChangeEvent Availability) : List Availability :=
  match ev with
  | .insert r => prev ++ [r]
  | .update r => prev.map fun avail => if avail.id = r.id then r else avail
  | .delete r => prev.filter fun avail => avail.id ≠ r.id

/-- The optimistic update of `createShift`: append the optimistic (temp-id)
shift. -/
def createShiftOptimistic (prev : List Shift) (optimisticShift : Shift) : List Shift :=
  prev ++ [optimisticShift]

/-- On persistence success, `createShift` replaces the optimistic record with
the authoritative row: filter out the temp id, concat the server row. -/
def createShiftReplace (prev : List Shift) (optimisticId : String)
    (serverRow : Shift) : List Shift :=
  (prev.filter fun s => s.id ≠ optimisticId) ++ [serverRow]

/-- The rollback in the `catch` of `createShift`: filter out the optimistic
shift's id. -/
def createShiftRollback (prev : List Shift) (optimisticId : String) : List Shift :=
  prev.filter fun s => s.id ≠ optimisticId

/-- The optimistic update of `deleteShift`: filter out the id of the shift to
delete. -/
def deleteShiftOptimistic (prev : List Shift) (shiftToDelete : Shift) : List Shift :=
  prev.filter fun shift => shift.id ≠ shiftToDelete.id

/-- The rollback in the `catch` of `deleteShift`: re-append the deleted
shift. -/
def deleteShiftRollback (prev : List Shift) (shiftToDelete : Shift) : List Shift :=
  prev ++ [shiftToDelete]

end AvailabilityGrid

/-- Outcome of running one mutation handler to completion: the final store
contents, whether the operation completed as a success (success toast), and
what happened on the email side.  The email attempt sits inside an inner
try/catch whose catch only logs, so it can never divert the control flow of
the surrounding handler. -/
structure MutationRun where
  state : List Shift
  succeeded : Bool
  emailSent : Bool
  loggedEmailError : Bool
deriving DecidableEq

namespace AvailabilityGrid

/-- Full run of `createShift` from logout-button.tsx: optimistic append, then
either replace-with-server-row plus best-effort email (success path) or
rollback (failure path).  `persistOk` is the outcome of the insert call,
`emailOk` the outcome of the email dispatch. -/
def createShiftRun (prev : List Shift) (optimisticShift serverRow : Shift)
    (persistOk emailOk : Bool) : MutationRun :=
  let afterOptimistic := createShiftOptimistic prev optimisticShift
  if persistOk then
    { state := createShiftReplace afterOptimistic optimisticShift.id serverRow
      succeeded := true
      emailSent := emailOk
      loggedEmailError := !emailOk }
  else
    { state := createShiftRollback afterOptimistic optimisticShift.id
      succeeded := false
      emailSent := false
      loggedEmailError := false }

end AvailabilityGrid

namespace PAShifts

/-- Full run of `confirmShift` from pa-shifts.tsx: capture the previous shift,
optimistic update, then either best-effort email (success path; the store is
not touched again) or rollback (failure path). -/
def confirmShiftRun (prev : List Shift) (shiftId : String)
    (persistOk emailOk : Bool) : MutationRun :=
  let previousShift := prev.find? fun s => s.id = shiftId
  let afterOptimistic := confirmShiftOptimistic prev shiftId
  if persistOk then
    { state := afterOptimistic
      succeeded := true
      emailSent := emailOk
      loggedEmailError := !emailOk }
  else
    { state := confirmShiftRollback afterOptimistic shiftId previousShift
      succeeded := false
      emailSent := false
      loggedEmailError := false }

/-- Full run of `declineShift` from pa-shifts.tsx, symmetric to
`confirmShiftRun`. -/
def declineShiftRun (prev : List Shift) (shiftId : String)
    (persistOk emailOk : Bool) : MutationRun :=
  let previousShift := prev.find? fun s => s.id = shiftId
  let afterOptimistic := declineShiftOptimistic prev shiftId
  if persistOk then
    { state := afterOptimistic
      succeeded := true
      emailSent := emailOk
      loggedEmailError := !emailOk }
  else
    { state := declineShiftRollback afterOptimistic shiftId previousShift
      succeeded := false
      emailSent := false
      loggedEmailError := false }

end PAShifts

/-- Model of JavaScript `str.split(':')` on a string viewed as its character
list: the list of colon-separated fields (always nonempty). -/
def splitOnColon : List Char → List (List Char)
  | [] => [[]]
  | c :: cs =>
    if c = ':' then [] :: splitOnColon cs
    else
      match splitOnColon cs with
      | [] => [[c]]
      | field :: rest => (c :: field) :: rest

namespace AvailabilityGrid

/-- From logout-button.tsx `formatTimeForDB`: null or empty maps to null; a
string with three colon-fields is kept; one with two colon-fields gets ":00"
appended; anything else is invalid and maps to null.  Time strings are
modelled as character lists. -/
def formatTimeForDB (timeStr : Option (List Char)) : Option (List Char) :=
  match timeStr with
  | none => none
  | some t =>
    if t = [] then none
    else if t.contains ':' && (splitOnColon t).length == 3 then some t
    else if t.contains ':' && (splitOnColon t).length == 2 then some (t ++ [':', '0', '0'])
    else none

end AvailabilityGrid

namespace PAShifts

/-- From pa-shifts.tsx `formatTime`: null/empty displays as "Not set"; with at
least two colon-fields, the first two are joined by a colon (HH:MM:SS →
HH:MM); otherwise the string is returned unchanged. -/
def formatTime (timeStr : Option (List Char)) : List Char :=
  match timeStr with
  | none => "Not set".data
  | some t =>
    if t = [] then "Not set".data
    else
      match splitOnColon t with
      | p0 :: p1 :: _ => p0 ++ ':' :: p1
      | _ => t

/-- Model of `a.localeCompare(b)` on ISO `YYYY-MM-DD` dates: lexicographic
string comparison returning a negative, zero, or positive integer. -/
def localeCompare (a b : String) : Int :=
  if a < b then -1 else if b < a then 1 else 0

/-- The comparator of `sortedShifts` in pa-shifts.tsx: pending shifts first,
then by date. -/
def shiftCompare (a b : Shift) : Int :=
  if a.confirmation_status = .pending ∧ b.confirmation_status ≠ .pending then -1
  else if a.confirmation_status ≠ .pending ∧ b.confirmation_status = .pending then 1
  else localeCompare a.date b.date

/-- The nonstrict order induced by the comparator (`shiftCompare a b <= 0`),
used to express what `Array.prototype.sort` guarantees for a consistent
comparator. -/
def shiftLe (a b : Shift) : Bool :=
  decide (shiftCompare a b ≤ 0)

/-- From pa-shifts.tsx `sortedShifts`: `[...shifts].sort(cmp)`.  JavaScript
sort with a consistent comparator returns a permutation of the input that is
sorted with respect to the comparator; it is modelled by a sorting function
over `shiftLe`. -/
def sortedShifts (shifts : List Shift) : List Shift :=
  shifts.mergeSort shiftLe

/-- Rank used to reason about the comparator: pending shifts sort before all
others. -/
def pendingRank (s : Shift) : Nat :=
  if s.confirmation_status = .pending then 0 else 1

end PAShifts

/-- The 32-symbol alphabet of inviteCode.ts, excluding I, O, 0, 1. -/
def inviteAlphabet : List Char :=
  "ABCDEFGHJKLMNPQRSTUVWXYZ23456789".data

/-- Indexing `chars[...]` of inviteCode.ts: a random draw is a number in
0..31 (`Math.floor(Math.random() * chars.length)`). -/
def inviteChar (k : Fin 32) : Char :=
  inviteAlphabet.get (Fin.cast (by decide) k)

/-- From inviteCode.ts `generateInviteCode`: six random draws from the
alphabet, with a hyphen appended after the third (loop index 2).  The
sequence of random draws is passed in as `pick`. -/
def generateInviteCode (pick : Fin 6 → Fin 32) : List Char :=
  (List.finRange 6).foldl
    (fun code i =>
      let code := code ++ [inviteChar (pick i)]
      if i.val = 2 then code ++ ['-'] else code)
    []

/-- Concrete availability record used in counterexamples and witnesses. -/
def availEx : Availability :=
  { id := "av1", user_id := "u1", date := "2025-03-10", status := .available,
    pa_note := none, created_at := "t0", updated_at := "t0" }

/-- A second concrete availability record (different id and date). -/
def availEx2 : Availability :=
  { id := "av2", user_id := "u1", date := "2025-03-12", status := .preferred,
    pa_note := none, created_at := "t0", updated_at := "t0" }

/-- Concrete pending shift used in counterexamples and witnesses. -/
def shiftEx : Shift :=
  { id := "sh1", date := "2025-03-10", assigned_pa_id := "u1",
    assigned_by_id := "pc1", call_time := some "08:00:00",
    wrap_time := some "18:00:00", confirmation_status := .pending,
    created_at := "t0", updated_at := "t0" }

/-- Concrete confirmed shift with an earlier date. -/
def shiftEx2 : Shift :=
  { id := "sh2", date := "2025-03-09", assigned_pa_id := "u1",
    assigned_by_id := "pc1", call_time := none, wrap_time := none,
    confirmation_status := .confirmed, created_at := "t0", updated_at := "t0" }

/-- Concrete optimistic shift carrying a temporary id. -/
def shiftTempEx : Shift :=
  { id := "temp-1", date := "2025-03-11", assigned_pa_id := "u1",
    assigned_by_id := "pc1", call_time := some "08:00:00",
    wrap_time := some "18:00:00", confirmation_status := .pending,
    created_at := "t1", updated_at := "t1" }

/-- Concrete authoritative server row for the optimistic shift. -/
def shiftServerEx : Shift :=
  { id := "sh9", date := "2025-03-11", assigned_pa_id := "u1",
    assigned_by_id := "pc1", call_time := some "08:00:00",
    wrap_time := some "18:00:00", confirmation_status := .pending,
    created_at := "t1", updated_at := "t1" }

/-- A concrete sequence of random draws (always the first symbol). -/
def pickEx : Fin 6 → Fin 32 := fun _ => ⟨0, by decide⟩

/-- An updated version of `availEx` (same id, new status), as carried by an
UPDATE event. -/
def availExUpd : Availability :=
  { availEx with status := .preferred }

/-- An availability record whose date lies far outside any plausible visible
window. -/
def availExFar : Availability :=
  { availEx with date := "2030-01-01" }

/-- Claim C5: `cycleStatus` is total on the four states (its Lean type) and is
a 4-cycle following the fixed ring
unset → unavailable → available → preferred → unset. -/
theorem c5_cycle_status :
    (∀ s : Option AvailabilityStatus,
      PACalendar.cycleStatus (PACalendar.cycleStatus
        (PACalendar.cycleStatus (PACalendar.cycleStatus s))) = s) ∧
    PACalendar.cycleStatus none = some .unavailable ∧
    PACalendar.cycleStatus (some .unavailable) = some .available ∧
    PACalendar.cycleStatus (some .available) = some .preferred ∧
    PACalendar.cycleStatus (some .preferred) = none := by
  refine ⟨fun s => ?_, rfl, rfl, rfl, rfl⟩
  rcases s with _ | s
  · rfl
  · cases s <;> rfl

/-- Claim C6: for every availability status (including none), a cell with an
assigned shift is labelled "Assigned"; in particular an unavailable status is
overridden. -/
theorem c6_assigned_overrides :
    (∀ s : Option AvailabilityStatus, AvailabilityGrid.getStatusLabel s true = "Assigned") ∧
    AvailabilityGrid.getStatusLabel (some .unavailable) true = "Assigned" := by
  exact ⟨fun s => rfl, rfl⟩

/-- Claim C1 (code bug witness): merging the same availability INSERT event
twice through the PA calendar handler (date inside the window) yields TWO
records with the event's identifier, while the PA shifts insert-merge is
idempotent and yields exactly one. -/
theorem c1_duplicate_insert_availability :
    ((PACalendar.applyAvailabilityEvent "2025-03-01" "2025-03-31"
        (PACalendar.applyAvailabilityEvent "2025-03-01" "2025-03-31" []
          (ChangeEvent.insert availEx))
        (ChangeEvent.insert availEx)).countP fun a => a.id = availEx.id) = 2 ∧
    ((AvailabilityGrid.applyAvailabilityEvent
        (AvailabilityGrid.applyAvailabilityEvent [] (ChangeEvent.insert availEx))
        (ChangeEvent.insert availEx)).countP fun a => a.id = availEx.id) = 2 ∧
    ((PAShifts.mergeInsert (PAShifts.mergeInsert [] shiftEx) shiftEx).countP
        fun s => s.id = shiftEx.id) = 1 ∧
    ((AvailabilityGrid.shiftsMergeInsert
        (AvailabilityGrid.shiftsMergeInsert [] shiftEx) shiftEx).countP
        fun s => s.id = shiftEx.id) = 1 := by
  have hwin : ("2025-03-01" : String) ≤ availEx.date ∧ availEx.date ≤ "2025-03-31" := by
    constructor <;> (rw [String.le_iff_toList_le]; decide)
  refine ⟨?_, ?_, ?_, ?_⟩
  · simp only [PACalendar.applyAvailabilityEvent, PACalendar.eventDate]
    rw [if_pos hwin, if_pos hwin]
    decide
  · decide
  · decide
  · decide

/-- Claim C7: when the persistence write succeeds, the final store state and
the success outcome of create/confirm/decline are identical whether the email
send fails or succeeds; the committed mutation is never rolled back by an
email failure. -/
theorem c7_email_failure_no_rollback :
    ∀ (prev : List Shift) (optimisticShift serverRow : Shift) (shiftId : String),
      ((AvailabilityGrid.createShiftRun prev optimisticShift serverRow true false).state =
          (AvailabilityGrid.createShiftRun prev optimisticShift serverRow true true).state ∧
        (AvailabilityGrid.createShiftRun prev optimisticShift serverRow true false).succeeded
          = true) ∧
      ((PAShifts.confirmShiftRun prev shiftId true false).state =
          (PAShifts.confirmShiftRun prev shiftId true true).state ∧
        (PAShifts.confirmShiftRun prev shiftId true false).succeeded = true) ∧
      ((PAShifts.declineShiftRun prev shiftId true false).state =
          (PAShifts.declineShiftRun prev shiftId true true).state ∧
        (PAShifts.declineShiftRun prev shiftId true false).succeeded = true) := by
  intro prev optimisticShift serverRow shiftId
  exact ⟨⟨rfl, rfl⟩, ⟨rfl, rfl⟩, ⟨rfl, rfl⟩⟩

/-- Filtering away an id that occurs nowhere in the list is the identity. -/
theorem filter_id_ne_of_forall {l : List Shift} {x : String}
    (h : ∀ s ∈ l, s.id ≠ x) : (l.filter fun s => s.id ≠ x) = l := by
  rw [List.filter_eq_self]
  intro a ha
  simpa using h a ha

/-- Shared shape of the confirm/decline rollback: capturing the first record
matching an id, optimistically rewriting all matches with an id-preserving
update, and then mapping matches back to the captured record restores the
original list when ids are duplicate-free. -/
theorem rollback_after_update_map (l : List Shift) (x : String) (u : Shift → Shift)
    (hu : ∀ s, (u s).id = s.id) (hnodup : (l.map Shift.id).Nodup) :
    (match l.find? fun s => s.id = x with
     | some p =>
        (l.map fun s => if s.id = x then u s else s).map fun s => if s.id = x then p else s
     | none => l.map fun s => if s.id = x then u s else s) = l := by
  rcases hfind : l.find? fun s => s.id = x with _ | p
  · have hnone := List.find?_eq_none.mp hfind
    have hid : ∀ s ∈ l, (if s.id = x then u s else s) = s := by
      intro s hs
      have hne : ¬ s.id = x := by simpa using hnone s hs
      simp [hne]
    rw [hfind]
    rw [List.map_congr_left hid]
    exact List.map_id l
  · have hpx : p.id = x := by simpa using List.find?_some hfind
    have hpmem : p ∈ l := List.mem_of_find?_eq_some hfind
    rw [hfind]
    dsimp only
    rw [List.map_map]
    have hid : ∀ s ∈ l,
        ((fun s => if s.id = x then p else s) ∘ fun s => if s.id = x then u s else s) s = s := by
      intro s hs
      by_cases hsx : s.id = x
      · have hsp : s = p :=
          List.inj_on_of_nodup_map hnodup hs hpmem (by rw [hsx, hpx])
        simp [Function.comp, hsx, hu s, ← hsp]
      · simp [Function.comp, hsx]
    rw [show ((fun s => if s.id = x then p else s) ∘ fun s => if s.id = x then u s else s)
          = fun s => ((fun s => if s.id = x then p else s) ∘
            fun s => if s.id = x then u s else s) s from rfl]
    rw [List.map_congr_left hid]
    exact List.map_id l

/-- In a list with duplicate-free ids, filtering for the id of a member
yields exactly that member. -/
theorem filter_id_eq_singleton {l : List Shift} {d : Shift} (hmem : d ∈ l)
    (hnodup : (l.map Shift.id).Nodup) :
    (l.filter fun s => s.id = d.id) = [d] := by
  induction l with
  | nil => cases hmem
  | cons a t ih =>
    rw [List.map_cons, List.nodup_cons] at hnodup
    obtain ⟨hna, hnt⟩ := hnodup
    rcases List.mem_cons.mp hmem with rfl | hdt
    · have h1 : (t.filter fun s => s.id = d.id) = [] := by
        rw [List.filter_eq_nil_iff]
        intro s hs
        simp only [decide_eq_true_eq]
        intro hsid
        exact hna (hsid ▸ List.mem_map_of_mem Shift.id hs)
      rw [List.filter_cons_of_pos (by simp), h1]
    · have had : a.id ≠ d.id := by
        intro he
        exact hna (he ▸ List.mem_map_of_mem Shift.id hdt)
      rw [List.filter_cons_of_neg (by simpa using had), ih hdt hnt]

/-- The delete rollback (filter out the id, then re-append the record) is a
permutation of the original list when the record was present and ids are
duplicate-free. -/
theorem delete_rollback_perm {l : List Shift} {d : Shift} (hmem : d ∈ l)
    (hnodup : (l.map Shift.id).Nodup) :
    (AvailabilityGrid.deleteShiftRollback
      (AvailabilityGrid.deleteShiftOptimistic l d) d).Perm l := by
  unfold AvailabilityGrid.deleteShiftRollback AvailabilityGrid.deleteShiftOptimistic
  have hperm := List.filter_append_perm (fun s : Shift => decide (s.id ≠ d.id)) l
  have hneg : (fun s : Shift => !(decide (s.id ≠ d.id))) = fun s => decide (s.id = d.id) := by
    funext s
    by_cases h : s.id = d.id <;> simp [h]
  rw [hneg, filter_id_eq_singleton hmem hnodup] at hperm
  exact hperm

/-- Claim C2: for each mutating operation (create, confirm, decline, delete),
if the persistence call fails, the rollback applied to the optimistically
updated collection restores the pre-mutation collection: the same records
with the same field values. -/
theorem c2_rollback_restores_store :
    ∀ (prev : List Shift) (optimisticShift shiftToDelete : Shift) (shiftId : String),
      ((∀ s ∈ prev, s.id ≠ optimisticShift.id) →
        AvailabilityGrid.createShiftRollback
          (AvailabilityGrid.createShiftOptimistic prev optimisticShift)
          optimisticShift.id = prev) ∧
      ((prev.map Shift.id).Nodup →
        PAShifts.confirmShiftRollback (PAShifts.confirmShiftOptimistic prev shiftId)
          shiftId (prev.find? fun s => s.id = shiftId) = prev) ∧
      ((prev.map Shift.id).Nodup →
        PAShifts.declineShiftRollback (PAShifts.declineShiftOptimistic prev shiftId)
          shiftId (prev.find? fun s => s.id = shiftId) = prev) ∧
      (shiftToDelete ∈ prev → (prev.map Shift.id).Nodup →
        (AvailabilityGrid.deleteShiftRollback
          (AvailabilityGrid.deleteShiftOptimistic prev shiftToDelete)
          shiftToDelete).Perm prev) := by
  intro prev optimisticShift shiftToDelete shiftId
  refine ⟨?_, ?_, ?_, fun hm hn => delete_rollback_perm hm hn⟩
  · intro h
    unfold AvailabilityGrid.createShiftRollback AvailabilityGrid.createShiftOptimistic
    rw [List.filter_append, filter_id_ne_of_forall h]
    simp
  · intro hn
    exact rollback_after_update_map prev shiftId
      (fun s => { s with confirmation_status := .confirmed }) (fun s => rfl) hn
  · intro hn
    exact rollback_after_update_map prev shiftId
      (fun s => { s with confirmation_status := .declined }) (fun s => rfl) hn

/-- Witness for C2 at a concrete two-shift store. -/
theorem c2_witness :
    (∀ s ∈ [shiftEx, shiftEx2], s.id ≠ shiftTempEx.id) ∧
    ([shiftEx, shiftEx2].map Shift.id).Nodup ∧
    shiftEx ∈ [shiftEx, shiftEx2] ∧
    AvailabilityGrid.createShiftRollback
      (AvailabilityGrid.createShiftOptimistic [shiftEx, shiftEx2] shiftTempEx)
      shiftTempEx.id = [shiftEx, shiftEx2] ∧
    PAShifts.confirmShiftRollback
      (PAShifts.confirmShiftOptimistic [shiftEx, shiftEx2] "sh1") "sh1"
      ([shiftEx, shiftEx2].find? fun s => s.id = "sh1") = [shiftEx, shiftEx2] ∧
    PAShifts.declineShiftRollback
      (PAShifts.declineShiftOptimistic [shiftEx, shiftEx2] "sh1") "sh1"
      ([shiftEx, shiftEx2].find? fun s => s.id = "sh1") = [shiftEx, shiftEx2] ∧
    (AvailabilityGrid.deleteShiftRollback
      (AvailabilityGrid.deleteShiftOptimistic [shiftEx, shiftEx2] shiftEx)
      shiftEx).Perm [shiftEx, shiftEx2] := by
  have h := c2_rollback_restores_store [shiftEx, shiftEx2] shiftTempEx shiftEx "sh1"
  exact ⟨by decide, by decide, by decide, h.1 (by decide), h.2.1 (by decide),
    h.2.2.1 (by decide), h.2.2.2 (by decide) (by decide)⟩

/-- Replacing by id keeps the new row in the list when some record with its
id is present. -/
theorem replace_mem {α : Type} (l : List α) (idf : α → String) (r : α)
    (h : ∃ a ∈ l, idf a = idf r) :
    r ∈ l.map fun a => if idf a = idf r then r else a := by
  obtain ⟨a, ha, haid⟩ := h
  exact List.mem_map.mpr ⟨a, ha, by simp [haid]⟩

/-- Replacing by id is the identity when no record with that id is present. -/
theorem replace_absent {α : Type} (l : List α) (idf : α → String) (r : α)
    (h : ∀ a ∈ l, idf a ≠ idf r) :
    (l.map fun a => if idf a = idf r then r else a) = l := by
  have hid : ∀ a ∈ l, (if idf a = idf r then r else a) = a := by
    intro a ha
    simp [h a ha]
  exact (List.map_congr_left hid).trans (List.map_id l)

/-- Claim C3 counterexample: an UPDATE event whose identifier is absent from
the store leaves the availability stores empty — it is not treated as an
insert, neither by the PA calendar handler (date inside the window) nor by
the PC grid availability handler, nor by the PC grid shifts handler. -/
theorem c3_counterexample :
    (("2025-03-01" : String) ≤ availEx2.date ∧ availEx2.date ≤ "2025-03-31") ∧
    PACalendar.applyAvailabilityEvent "2025-03-01" "2025-03-31" []
      (ChangeEvent.update availEx2) = [] ∧
    AvailabilityGrid.applyAvailabilityEvent [] (ChangeEvent.update availEx2) = [] ∧
    AvailabilityGrid.shiftsMergeUpdate [] shiftEx = [] := by
  refine ⟨⟨?_, ?_⟩, ?_, rfl, rfl⟩
  · rw [String.le_iff_toList_le]
    decide
  · rw [String.le_iff_toList_le]
    decide
  · simp [PACalendar.applyAvailabilityEvent]

/-- Claim C3 as amended: after an update merge, any record carrying the
event's identifier has the event's new row values, and a present identifier
is always replaced; but only the PA shifts update handler inserts the row
when the identifier is absent — the PC grid shifts handler and both
availability handlers leave the store unchanged in that case. -/
theorem c3_amended :
    ∀ (prevS : List Shift) (evS : Shift) (prevA : List Availability) (evA : Availability)
      (monthStart monthEnd : String),
      evS ∈ PAShifts.mergeUpdate prevS evS ∧
      (∀ s ∈ PAShifts.mergeUpdate prevS evS, s.id = evS.id → s = evS) ∧
      ((∃ s ∈ prevS, s.id = evS.id) → evS ∈ AvailabilityGrid.shiftsMergeUpdate prevS evS) ∧
      ((∀ s ∈ prevS, s.id ≠ evS.id) → AvailabilityGrid.shiftsMergeUpdate prevS evS = prevS) ∧
      ((∃ a ∈ prevA, a.id = evA.id) →
        evA ∈ AvailabilityGrid.applyAvailabilityEvent prevA (ChangeEvent.update evA)) ∧
      ((∀ a ∈ prevA, a.id ≠ evA.id) →
        AvailabilityGrid.applyAvailabilityEvent prevA (ChangeEvent.update evA) = prevA) ∧
      ((monthStart ≤ evA.date ∧ evA.date ≤ monthEnd) → (∃ a ∈ prevA, a.id = evA.id) →
        evA ∈ PACalendar.applyAvailabilityEvent monthStart monthEnd prevA
          (ChangeEvent.update evA)) ∧
      ((∀ a ∈ prevA, a.id ≠ evA.id) →
        PACalendar.applyAvailabilityEvent monthStart monthEnd prevA
          (ChangeEvent.update evA) = prevA) := by
  intro prevS evS prevA evA monthStart monthEnd
  refine ⟨?_, ?_, ?_, ?_, ?_, ?_, ?_, ?_⟩
  · unfold PAShifts.mergeUpdate
    by_cases h : prevS.any fun shift => shift.id = evS.id
    · rw [if_pos h]
      obtain ⟨a, ha, hap⟩ := List.any_eq_true.mp h
      exact replace_mem prevS Shift.id evS ⟨a, ha, by simpa using hap⟩
    · rw [if_neg h]
      simp
  · intro s hs hsid
    unfold PAShifts.mergeUpdate at hs
    by_cases h : prevS.any fun shift => shift.id = evS.id
    · rw [if_pos h] at hs
      obtain ⟨a, _, hfa⟩ := List.mem_map.mp hs
      by_cases haid : a.id = evS.id
      · rw [if_pos haid] at hfa
        exact hfa.symm
      · rw [if_neg haid] at hfa
        exact absurd (hfa ▸ hsid) haid
    · rw [if_neg h] at hs
      rcases List.mem_append.mp hs with hmem | hmem
      · have hall : ∀ x ∈ prevS, ¬ x.id = evS.id := by
          simpa using h
        exact absurd hsid (hall s hmem)
      · simpa using hmem
  · intro h
    exact replace_mem prevS Shift.id evS h
  · intro h
    exact replace_absent prevS Shift.id evS h
  · intro h
    exact replace_mem prevA Availability.id evA h
  · intro h
    exact replace_absent prevA Availability.id evA h
  · intro hw h
    unfold PACalendar.applyAvailabilityEvent
    have hw2 : monthStart ≤ PACalendar.eventDate (ChangeEvent.update evA) ∧
        PACalendar.eventDate (ChangeEvent.update evA) ≤ monthEnd := hw
    rw [if_pos hw2]
    exact replace_mem prevA Availability.id evA h
  · intro h
    unfold PACalendar.applyAvailabilityEvent
    by_cases hw : monthStart ≤ PACalendar.eventDate (ChangeEvent.update evA) ∧
        PACalendar.eventDate (ChangeEvent.update evA) ≤ monthEnd
    · rw [if_pos hw]
      exact replace_absent prevA Availability.id evA h
    · rw [if_neg hw]

/-- Witness for C3 at concrete stores: an absent-id update leaves the PC grid
availability store unchanged, a present-id update replaces the row, and the
PA shifts update upserts into an empty store. -/
theorem c3_witness :
    shiftEx ∈ PAShifts.mergeUpdate [] shiftEx ∧
    (∀ a ∈ [availEx], a.id ≠ availEx2.id) ∧
    AvailabilityGrid.applyAvailabilityEvent [availEx] (ChangeEvent.update availEx2)
      = [availEx] ∧
    (∃ a ∈ [availEx], a.id = availExUpd.id) ∧
    availExUpd ∈ AvailabilityGrid.applyAvailabilityEvent [availEx]
      (ChangeEvent.update availExUpd) := by
  have h1 := c3_amended [] shiftEx [availEx] availEx2 "2025-03-01" "2025-03-31"
  have h2 := c3_amended [] shiftEx [availEx] availExUpd "2025-03-01" "2025-03-31"
  exact ⟨h1.1, by decide, h1.2.2.2.2.2.1 (by decide), by decide,
    h2.2.2.2.2.1 (by decide)⟩

/-- Claim C4 counterexample: the PC grid availability handler applies an
INSERT event whose date lies outside the grid's fetched window (for example
the window 2025-02-17 to 2025-04-06 of a March 2025 view) — the store changes
rather than dropping the event. -/
theorem c4_counterexample :
    ¬ (("2025-02-17" : String) ≤ availExFar.date ∧ availExFar.date ≤ "2025-04-06") ∧
    AvailabilityGrid.applyAvailabilityEvent [] (ChangeEvent.insert availExFar)
      = [availExFar] ∧
    AvailabilityGrid.applyAvailabilityEvent [] (ChangeEvent.insert availExFar) ≠ [] := by
  refine ⟨?_, rfl, by simp [AvailabilityGrid.applyAvailabilityEvent]⟩
  intro hc
  have h2 := hc.2
  rw [String.le_iff_toList_le] at h2
  exact absurd h2 (by decide)

/-- Claim C4 as amended: only the PA calendar availability handler drops
events whose date lies outside the visible window; the PC grid availability
handler is not date-gated — an insert is appended regardless of the record's
date. -/
theorem c4_amended :
    ∀ (monthStart monthEnd : String) (prev : List Availability)
      (ev : ChangeEvent Availability) (r : Availability),
      (¬ (monthStart ≤ PACalendar.eventDate ev ∧ PACalendar.eventDate ev ≤ monthEnd) →
        PACalendar.applyAvailabilityEvent monthStart monthEnd prev ev = prev) ∧
      AvailabilityGrid.applyAvailabilityEvent prev (ChangeEvent.insert r) = prev ++ [r] := by
  intro monthStart monthEnd prev ev r
  refine ⟨fun h => ?_, rfl⟩
  unfold PACalendar.applyAvailabilityEvent
  rw [if_neg h]

/-- Witness for C4: an insert event dated 2030-01-01 is dropped by the PA
calendar handler showing March 2025. -/
theorem c4_witness :
    ¬ (("2025-03-01" : String) ≤ PACalendar.eventDate (ChangeEvent.insert availExFar) ∧
        PACalendar.eventDate (ChangeEvent.insert availExFar) ≤ "2025-03-31") ∧
    PACalendar.applyAvailabilityEvent "2025-03-01" "2025-03-31" [availEx]
      (ChangeEvent.insert availExFar) = [availEx] := by
  have hno : ¬ (("2025-03-01" : String) ≤ PACalendar.eventDate (ChangeEvent.insert availExFar) ∧
      PACalendar.eventDate (ChangeEvent.insert availExFar) ≤ "2025-03-31") := by
    intro hc
    have h2 := hc.2
    have h3 : (("2030-01-01" : String) ≤ "2025-03-31") := h2
    rw [String.le_iff_toList_le] at h3
    exact absurd h3 (by decide)
  exact ⟨hno,
    (c4_amended "2025-03-01" "2025-03-31" [availEx] (ChangeEvent.insert availExFar)
      availExFar).1 hno⟩

/-- A colon-free string is a single field under colon splitting. -/
theorem splitOnColon_no_colon {t : List Char} (h : ':' ∉ t) : splitOnColon t = [t] := by
  induction t with
  | nil => rfl
  | cons c cs ih =>
    have hc : c ≠ ':' := fun he => h (he ▸ List.mem_cons_self c cs)
    have htail : ':' ∉ cs := fun hm => h (List.mem_cons_of_mem c hm)
    simp only [splitOnColon, if_neg hc, ih htail]

/-- Splitting peels off a leading colon-free field. -/
theorem splitOnColon_append (a rest : List Char) (h : ':' ∉ a) :
    splitOnColon (a ++ ':' :: rest) = a :: splitOnColon rest := by
  induction a with
  | nil => simp [splitOnColon]
  | cons c cs ih =>
    have hc : c ≠ ':' := fun he => h (he ▸ List.mem_cons_self c cs)
    have htail : ':' ∉ cs := fun hm => h (List.mem_cons_of_mem c hm)
    simp only [List.cons_append, splitOnColon, if_neg hc, List.append_eq, ih htail]

/-- Claim C8: a time string of the form HH:MM (one colon, colon-free fields)
persists by appending ":00", redisplaying truncates back to HH:MM, so the
round-trip is the identity; null persists as null. -/
theorem c8_time_roundtrip :
    ∀ hh mm : List Char, ':' ∉ hh → ':' ∉ mm →
      AvailabilityGrid.formatTimeForDB (some (hh ++ ':' :: mm)) =
        some ((hh ++ ':' :: mm) ++ [':', '0', '0']) ∧
      PAShifts.formatTime (AvailabilityGrid.formatTimeForDB (some (hh ++ ':' :: mm))) =
        hh ++ ':' :: mm ∧
      AvailabilityGrid.formatTimeForDB none = none := by
  intro hh mm hhh hmm
  have hne : hh ++ ':' :: mm ≠ [] := by simp
  have hsplit : splitOnColon (hh ++ ':' :: mm) = [hh, mm] := by
    rw [splitOnColon_append hh mm hhh, splitOnColon_no_colon hmm]
  have hcontains : (hh ++ ':' :: mm).contains ':' = true := by simp
  have hdb : AvailabilityGrid.formatTimeForDB (some (hh ++ ':' :: mm)) =
      some ((hh ++ ':' :: mm) ++ [':', '0', '0']) := by
    simp [AvailabilityGrid.formatTimeForDB, hne, hsplit, hcontains]
  have hassoc : (hh ++ ':' :: mm) ++ [':', '0', '0']
      = hh ++ ':' :: (mm ++ ':' :: ['0', '0']) := by
    simp
  have hsplit2 : splitOnColon (hh ++ ':' :: (mm ++ ':' :: ['0', '0']))
      = hh :: mm :: [['0', '0']] := by
    rw [splitOnColon_append _ _ hhh, splitOnColon_append _ _ hmm,
      splitOnColon_no_colon (by decide)]
  have hfmt : PAShifts.formatTime (some ((hh ++ ':' :: mm) ++ [':', '0', '0']))
      = hh ++ ':' :: mm := by
    rw [hassoc]
    simp [PAShifts.formatTime, hsplit2]
  exact ⟨hdb, by rw [hdb]; exact hfmt, rfl⟩

/-- Witness for C8 on the spec's example "08:00". -/
theorem c8_witness :
    (':' ∉ ['0', '8']) ∧ (':' ∉ ['0', '0']) ∧
    AvailabilityGrid.formatTimeForDB (some (['0', '8'] ++ ':' :: ['0', '0'])) =
      some ((['0', '8'] ++ ':' :: ['0', '0']) ++ [':', '0', '0']) ∧
    PAShifts.formatTime (AvailabilityGrid.formatTimeForDB
      (some (['0', '8'] ++ ':' :: ['0', '0']))) = ['0', '8'] ++ ':' :: ['0', '0'] := by
  have h := c8_time_roundtrip ['0', '8'] ['0', '0'] (by decide) (by decide)
  exact ⟨by decide, by decide, h.1, h.2.1⟩

/-- Unrolling of the six-iteration generation loop: three symbols, the
hyphen, three more symbols. -/
theorem generateInviteCode_eq (pick : Fin 6 → Fin 32) :
    generateInviteCode pick =
      [inviteChar (pick 0), inviteChar (pick 1), inviteChar (pick 2), '-',
       inviteChar (pick 3), inviteChar (pick 4), inviteChar (pick 5)] := rfl

/-- Every drawn character belongs to the alphabet. -/
theorem inviteChar_mem (k : Fin 32) : inviteChar k ∈ inviteAlphabet :=
  List.get_mem _ _ _

/-- Claim C9: for every sequence of random draws the generated code has 7
characters, the character at index 3 is the hyphen, and every other
character is drawn from the 32-symbol alphabet. -/
theorem c9_invite_code_format :
    ∀ pick : Fin 6 → Fin 32,
      (generateInviteCode pick).length = 7 ∧
      (generateInviteCode pick).get? 3 = some '-' ∧
      ∀ i : Nat, i < 7 → i ≠ 3 → ∀ c : Char,
        (generateInviteCode pick).get? i = some c → c ∈ inviteAlphabet := by
  intro pick
  rw [generateInviteCode_eq]
  refine ⟨rfl, rfl, ?_⟩
  intro i hi hne c hc
  interval_cases i <;> simp_all <;> exact hc ▸ inviteChar_mem _

/-- Witness for C9 at the constant draw sequence. -/
theorem c9_witness :
    (generateInviteCode pickEx).length = 7 ∧
    (generateInviteCode pickEx).get? 3 = some '-' ∧
    ((0 : Nat) < 7 ∧ (0 : Nat) ≠ 3 ∧ (generateInviteCode pickEx).get? 0 = some 'A') ∧
    'A' ∈ inviteAlphabet := by
  have h := c9_invite_code_format pickEx
  exact ⟨h.1, h.2.1, ⟨by decide, by decide, by decide⟩,
    h.2.2 0 (by decide) (by decide) 'A' (by decide)⟩

/-- The comparator's nonstrict order is the lexicographic order on
(pending-rank, date). -/
theorem shiftLe_iff (a b : Shift) :
    PAShifts.shiftLe a b = true ↔
      (PAShifts.pendingRank a < PAShifts.pendingRank b ∨
        (PAShifts.pendingRank a = PAShifts.pendingRank b ∧ a.date ≤ b.date)) := by
  unfold PAShifts.shiftLe PAShifts.shiftCompare PAShifts.localeCompare PAShifts.pendingRank
  by_cases h1 : a.confirmation_status = .pending <;>
    by_cases h2 : b.confirmation_status = .pending
  · rcases lt_trichotomy a.date b.date with hd | hd | hd
    · simp [h1, h2, hd, le_of_lt hd]
    · simp [h1, h2, hd, lt_irrefl]
    · simp [h1, h2, hd, asymm hd, not_le.mpr hd]
  · simp [h1, h2]
  · simp [h1, h2]
  · rcases lt_trichotomy a.date b.date with hd | hd | hd
    · simp [h1, h2, hd, le_of_lt hd]
    · simp [h1, h2, hd, lt_irrefl]
    · simp [h1, h2, hd, asymm hd, not_le.mpr hd]

/-- A strictly smaller pending-rank means pending versus non-pending. -/
theorem pendingRank_lt {a b : Shift}
    (h : PAShifts.pendingRank a < PAShifts.pendingRank b) :
    a.confirmation_status = .pending ∧ ¬ b.confirmation_status = .pending := by
  unfold PAShifts.pendingRank at h
  split_ifs at h with ha hb <;> first | omega | exact ⟨ha, hb⟩

/-- Equal pending-ranks mean the two shifts agree on being pending. -/
theorem pendingRank_eq {a b : Shift}
    (h : PAShifts.pendingRank a = PAShifts.pendingRank b) :
    (a.confirmation_status = .pending ↔ b.confirmation_status = .pending) := by
  unfold PAShifts.pendingRank at h
  split_ifs at h with ha hb <;> simp_all

/-- The comparator's order is transitive. -/
theorem shiftLe_trans (a b c : Shift) :
    PAShifts.shiftLe a b → PAShifts.shiftLe b c → PAShifts.shiftLe a c := by
  intro hab hbc
  rw [shiftLe_iff] at hab hbc ⊢
  rcases hab with h1 | ⟨h1, d1⟩ <;> rcases hbc with h2 | ⟨h2, d2⟩
  · exact Or.inl (h1.trans h2)
  · exact Or.inl (h2 ▸ h1)
  · exact Or.inl (h1 ▸ h2)
  · exact Or.inr ⟨h1.trans h2, d1.trans d2⟩

/-- The comparator's order is total. -/
theorem shiftLe_total (a b : Shift) :
    PAShifts.shiftLe a b || PAShifts.shiftLe b a := by
  rw [Bool.or_eq_true, shiftLe_iff, shiftLe_iff]
  rcases Nat.lt_trichotomy (PAShifts.pendingRank a) (PAShifts.pendingRank b) with h | h | h
  · exact Or.inl (Or.inl h)
  · rcases le_total a.date b.date with hd | hd
    · exact Or.inl (Or.inr ⟨h, hd⟩)
    · exact Or.inr (Or.inr ⟨h.symm, hd⟩)
  · exact Or.inr (Or.inl h)

/-- Claim C10: the PA shift list sort returns a permutation of the input in
which every pending shift precedes every non-pending shift, and shifts that
agree on pending-ness appear in nondecreasing date order. -/
theorem c10_sorted_shifts :
    ∀ shifts : List Shift,
      (PAShifts.sortedShifts shifts).Perm shifts ∧
      (PAShifts.sortedShifts shifts).Pairwise fun a b =>
        (b.confirmation_status = .pending → a.confirmation_status = .pending) ∧
        ((a.confirmation_status = .pending ↔ b.confirmation_status = .pending) →
          a.date ≤ b.date) := by
  intro shifts
  refine ⟨List.mergeSort_perm shifts _, ?_⟩
  have hs : (PAShifts.sortedShifts shifts).Pairwise fun a b => PAShifts.shiftLe a b :=
    List.sorted_mergeSort shiftLe_trans shiftLe_total shifts
  refine hs.imp ?_
  intro a b hab
  rw [shiftLe_iff] at hab
  constructor
  · intro hbp
    rcases hab with h | ⟨h, _⟩
    · exact (pendingRank_lt h).1
    · exact (pendingRank_eq h).mpr hbp
  · intro hiff
    rcases hab with h | ⟨_, hd⟩
    · obtain ⟨hap, hbn⟩ := pendingRank_lt h
      exact absurd (hiff.mp hap) hbn
    · exact hd

/-- Witness for C10 at a concrete two-shift list (pending shift first, then a
confirmed one). -/
theorem c10_witness :
    PAShifts.sortedShifts [shiftEx, shiftEx2] = [shiftEx, shiftEx2] ∧
    (PAShifts.sortedShifts [shiftEx, shiftEx2]).Perm [shiftEx, shiftEx2] ∧
    (PAShifts.sortedShifts [shiftEx, shiftEx2]).Pairwise fun a b =>
      (b.confirmation_status = .pending → a.confirmation_status = .pending) ∧
      ((a.confirmation_status = .pending ↔ b.confirmation_status = .pending) →
        a.date ≤ b.date) := by
  have h := c10_sorted_shifts [shiftEx, shiftEx2]
  refine ⟨List.mergeSort_of_sorted ?_, h.1, h.2⟩
  decide
